import Mathlib

/-
Verification of the "gather" execution-log slicer adapter
(src/client/datascience/gather/gather.ts and its variants).

The adapter converts VS Code cells to gather cells, logs executions into an
append-only history, and serializes merged program slices.  The functions
below are shallow embeddings of the TypeScript source; the parts of the
gather library that are not in this repository (ExecutionLogSlicer internals,
SlicedExecution.merge, LabCell.deepCopy) are modelled from the specification
and marked as such in their doc comments.
-/

/-- Whitespace as recognized by the JavaScript String.prototype.trim. -/
def isJsWhitespace (c : Char) : Bool :=
  c = ' ' || c = '\t' || c = '\n' || c = '\r' || c = '\x0b' || c = '\x0c'

/-- Drop leading JS whitespace from a character list. -/
def jsTrimLeftData (l : List Char) : List Char := l.dropWhile isJsWhitespace

/-- Drop trailing JS whitespace from a character list. -/
def jsTrimRightData (l : List Char) : List Char :=
  (l.reverse.dropWhile isJsWhitespace).reverse

/-- Embedding of JavaScript String.prototype.trim: strips whitespace from both ends. -/
def jsTrim (s : String) : String := ⟨jsTrimLeftData (jsTrimRightData s.data)⟩

/-- Trailing-only trim, used to state what the spec says about line joining. -/
def jsTrimEnd (s : String) : String := ⟨jsTrimRightData s.data⟩

/-- Embedding of JavaScript s.endsWith of a newline. -/
def endsWithNewline (s : String) : Bool := s.data.getLast? == some '\n'

/-- nbformat MultilineString: either a single string or a list of line strings. -/
inductive MultilineString where
  | str (s : String)
  | list (l : List String)
deriving DecidableEq

/-- The cell_type field of an nbformat cell. -/
inductive VscCellType where
  | code
  | markdown
  | raw
  | messages
deriving DecidableEq

/-- CellState enum from gather.ts (editing, init, executing, finished, error). -/
inductive CellState where
  | editing
  | init
  | executing
  | finished
  | error
deriving DecidableEq

/-- The data field of a VS Code cell; outputs are modelled as a reference
(index) into an outputs store, reflecting JavaScript object sharing. -/
structure VscCellData where
  cell_type : VscCellType
  source : MultilineString
  execution_count : Int
  outputsRef : Nat
deriving DecidableEq

/-- IVscCell from gather.ts: the VS Code cell interface. -/
structure IVscCell where
  id : String
  state : CellState
  data : VscCellData
deriving DecidableEq

/-- ICell from the gather model: the cell shape handed to the slicer. -/
structure ICell where
  id : String
  gathered : Bool
  dirty : Bool
  text : String
  executionCount : Int
  executionEventId : String
  persistentId : String
  outputsRef : Nat
  hasError : Bool
  is_cell : Bool
deriving DecidableEq

/-- The indexed loop of concatMultilineString over an array source: append a
newline after every element except the last unless it already ends in one. -/
def joinSourceLines : List String → String
  | [] => ""
  | [s] => s
  | s :: rest => (if endsWithNewline s then s else s ++ "\n") ++ joinSourceLines rest

/-- concatMultilineString from gather.ts (lines 76-90): join an array source
with newlines and apply JavaScript trim (which strips BOTH ends). -/
def concatMultilineString : MultilineString → String
  | .str s => jsTrim s
  | .list l => jsTrim (joinSourceLines l)

/-- The text the claim C4 describes: the same newline join but with only
trailing whitespace trimmed. -/
def specJoinedTextTrailingOnly (l : List String) : String :=
  jsTrimEnd (joinSourceLines l)

/-- convertVscToGatherCell from gather.ts (lines 199-217, the postExecute
variant): code cells become gather cells carrying the caller-supplied
execution_count and executionEventId equal to the cell id; other cell types
yield undefined. -/
def convertVscToGatherCell (cell : IVscCell) : Option ICell :=
  if cell.data.cell_type = VscCellType.code then
    some {
      id := cell.id
      gathered := false
      dirty := false
      text := concatMultilineString cell.data.source
      executionCount := cell.data.execution_count
      executionEventId := cell.id
      persistentId := cell.id
      outputsRef := cell.data.outputsRef
      hasError := cell.state = CellState.error
      is_cell := true }
  else none

/-- convertVscToGatherCell from the first gather.ts variant (lines 58-74) and
part_001: identical except executionCount is the constant 1. -/
def convertVscToGatherCellA (cell : IVscCell) : Option ICell :=
  if cell.data.cell_type = VscCellType.code then
    some {
      id := cell.id
      gathered := false
      dirty := false
      text := concatMultilineString cell.data.source
      executionCount := 1
      executionEventId := cell.id
      persistentId := cell.id
      outputsRef := cell.data.outputsRef
      hasError := cell.state = CellState.error
      is_cell := true }
  else none

/-- A fragment of a cell included in a slice: the contributing cell's
identity, its executionCount, the covered line set, and the slice text. -/
structure CellSlice where
  executionEventId : String
  executionCount : Int
  sliceLines : List Nat
  textSliceLines : String
deriving DecidableEq

/-- SlicedExecution: the ordered cell slices of one sliced physical execution. -/
structure SlicedExecution where
  cellSlices : List CellSlice
deriving DecidableEq

/-- Whether position i of the execution log holds an entry whose
executionEventId matches eid (entries may be undefined when a non-code cell
was logged). -/
def matchesAt (log : List (Option ICell)) (eid : String) (i : Nat) : Bool :=
  match log.getD i none with
  | some e => e.executionEventId == eid
  | none => false

/-- Modelled from the spec: ExecutionLogSlicer.sliceAllExecutions is not part
of this repository (it lives in the gather library).  Per the spec it locates
every logged entry whose executionEventId matches the given cell, computes a
SlicedExecution for each via the dataflow analysis, omits matching executions
that contributed no content (an empty computed slice, as for an empty-source
cell), orders the results newest matching execution first, and returns the
empty sequence when the cell was never logged or no matching execution
contributed content.  The dataflow-dependent slice computation is kept as the
explicit parameter sliceFor. -/
def sliceAllExecutions (sliceFor : List (Option ICell) → Nat → List CellSlice)
    (log : List (Option ICell)) (cell : ICell) : List SlicedExecution :=
  ((((List.range log.length).filter (matchesAt log cell.executionEventId)).reverse).map
      (fun i => ({ cellSlices := sliceFor log i } : SlicedExecution))).filter
    (fun s => !s.cellSlices.isEmpty)

/-- The header comment prepended by gatherCode (gather.ts line 166). -/
def descriptor : String :=
  "# This file contains the minimal amount of code required to produce the code cell you gathered.\n"

/-- concat from gather.ts (lines 190-193): accumulator prefixing each cell
slice with the cell marker and following it with a blank line. -/
def concat (existingText : String) (newText : CellSlice) : String :=
  existingText ++ "#%%\n" ++ newText.textSliceLines ++ "\n\n"

/-- The execution log owned by a GatherExecution instance: one entry per
logExecution call, each entry being the (possibly undefined) converted cell. -/
structure GatherState where
  log : List (Option ICell)
deriving DecidableEq

/-- gatherCode from gather.ts (lines 155-168) as a state method: convert the
cell (returning the empty string when conversion yields undefined), slice all
executions, and serialize slices[0] behind the descriptor header.  When
sliceAllExecutions returns the empty sequence, slices[0] is undefined and
reading its cellSlices property throws a TypeError, modelled as none. -/
def gatherCodeSt (sliceFor : List (Option ICell) → Nat → List CellSlice)
    (vscCell : IVscCell) (st : GatherState) : Option String × GatherState :=
  match convertVscToGatherCell vscCell with
  | none => (some "", st)
  | some cell =>
    match sliceAllExecutions sliceFor st.log cell with
    | [] => (none, st)
    | s :: _ => (some (descriptor ++ s.cellSlices.foldl concat ""), st)

/-- The return value of gatherCode over a given log. -/
def gatherCode (sliceFor : List (Option ICell) → Nat → List CellSlice)
    (log : List (Option ICell)) (vscCell : IVscCell) : Option String :=
  (gatherCodeSt sliceFor vscCell { log := log }).1

/-- preExecute from gather.ts (lines 136-139): a noop, it never logs. -/
def preExecute (_vscCell : IVscCell) (log : List (Option ICell)) : List (Option ICell) :=
  log

/-- postExecute from gather.ts (lines 141-150): unless data.source is the
empty string, convert the cell and hand the result to logExecution, which
appends it to the execution log.  Note the guard compares the raw source
value with the empty string, so an array source always passes it. -/
def postExecute (vscCell : IVscCell) (log : List (Option ICell)) : List (Option ICell) :=
  if vscCell.data.source ≠ MultilineString.str "" then
    log ++ [convertVscToGatherCell vscCell]
  else log

/-- Run a sequence of completed executions through postExecute. -/
def runPostExecutes (cells : List IVscCell) (log : List (Option ICell)) : List (Option ICell) :=
  cells.foldl (fun lg c => postExecute c lg) log

/-- The defined entries of the execution log. -/
def loggedCells (log : List (Option ICell)) : List ICell := log.filterMap id

/-- The executionCount values observed by the slicer, in log order. -/
def observedCounts (log : List (Option ICell)) : List Int :=
  (loggedCells log).map ICell.executionCount

/-- The executionEventId values present in the log, in log order. -/
def observedEventIds (log : List (Option ICell)) : List String :=
  (loggedCells log).map ICell.executionEventId

/-- The cell texts present in the log, in log order. -/
def loggedTexts (log : List (Option ICell)) : List String :=
  (loggedCells log).map ICell.text

/-- Read the outputs list held at reference r in the outputs store. -/
def readOutputs (st : List (List String)) (r : Nat) : List String := st.getD r []

/-- Mutate the outputs list held at reference r (in-place mutation of the
caller's outputs object). -/
def writeOutputs (st : List (List String)) (r : Nat) (v : List String) :
    List (List String) := st.set r v

/-- Modelled from the spec: LabCell.deepCopy is not part of this repository
(it lives in the gather library's cell model).  Per the spec's design note it
produces an independent snapshot of the cell, so the copy's outputs live at a
freshly allocated reference holding a copy of the current contents. -/
def deepCopy (c : ICell) (st : List (List String)) : ICell × List (List String) :=
  ({ c with outputsRef := st.length }, st ++ [readOutputs st c.outputsRef])

/-- logExecution from the first gather.ts variant (lines 20-26): convert the
VS Code cell, deep-copy it, and append the copy to the log.  A non-code cell
converts to undefined and the deepCopy call on it throws, modelled as none. -/
def logExecutionA (vscCell : IVscCell) (log : List ICell) (st : List (List String)) :
    Option (List ICell × List (List String)) :=
  match convertVscToGatherCellA vscCell with
  | none => none
  | some c =>
    let p := deepCopy c st
    some (log ++ [p.1], p.2)

/-- Set union of two covered line sets, keeping first-seen order. -/
def unionLines (a b : List Nat) : List Nat := a ++ b.filter (fun n => !a.contains n)

/-- Fold one cell slice into per-executionEventId groups, unioning the line
sets of slices contributed by the same physical execution. -/
def insertSliceGroup (groups : List CellSlice) (cs : CellSlice) : List CellSlice :=
  match groups with
  | [] => [cs]
  | g :: rest =>
    if g.executionEventId == cs.executionEventId then
      { g with sliceLines := unionLines g.sliceLines cs.sliceLines } :: rest
    else g :: insertSliceGroup rest cs

/-- Comparison of cell slices by the contributing cell's executionCount. -/
def sliceCountLe (a b : CellSlice) : Prop := a.executionCount ≤ b.executionCount

instance : DecidableRel sliceCountLe := fun a b =>
  inferInstanceAs (Decidable (a.executionCount ≤ b.executionCount))

instance : IsTotal CellSlice sliceCountLe := ⟨fun x y => Int.le_total x.executionCount y.executionCount⟩

instance : IsTrans CellSlice sliceCountLe := ⟨fun _a _b _c h h' => le_trans h h'⟩

/-- Modelled from the spec: SlicedExecution.merge is not part of this
repository (it lives in the gather library).  Per spec section 4.4 it groups
cell slices across the inputs by executionEventId, takes the union of each
group's line sets, and sorts the resulting cells ascending by executionCount. -/
def SlicedExecution.merge (first : SlicedExecution) (rest : List SlicedExecution) :
    SlicedExecution :=
  { cellSlices :=
      List.insertionSort sliceCountLe
        (((first :: rest).map SlicedExecution.cellSlices).flatten.foldl insertSliceGroup []) }

/-- A modify target of an override rule (part_000 doesNotModify entries). -/
inductive ModifyTarget where
  | OBJECT
  | ARGUMENTS
deriving DecidableEq

/-- An override rule marking a call as non-mutating (part_000 rule shape). -/
structure OverrideRule where
  objectName : Option String := none
  functionName : String
  doesNotModify : List ModifyTarget
deriving DecidableEq

/-- DEFAULT_SLICECONFIG_RULES from part_000 (lines 10-41). -/
def DEFAULT_SLICECONFIG_RULES : List OverrideRule := [
  { objectName := some "df", functionName := "head", doesNotModify := [ModifyTarget.OBJECT] },
  { objectName := some "df", functionName := "tail", doesNotModify := [ModifyTarget.OBJECT] },
  { objectName := some "df", functionName := "describe", doesNotModify := [ModifyTarget.OBJECT] },
  { functionName := "print", doesNotModify := [ModifyTarget.ARGUMENTS] },
  { functionName := "KMeans", doesNotModify := [ModifyTarget.ARGUMENTS] },
  { functionName := "scatter", doesNotModify := [ModifyTarget.ARGUMENTS] },
  { functionName := "fit", doesNotModify := [ModifyTarget.ARGUMENTS] },
  { functionName := "sum", doesNotModify := [ModifyTarget.ARGUMENTS] },
  { functionName := "len", doesNotModify := [ModifyTarget.ARGUMENTS] }]

/-- The slice-configuration state of a DataflowAnalyzer: the override rules
it was constructed with, or none when the constructor got no argument. -/
structure DataflowAnalyzer where
  sliceConfiguration : Option (List OverrideRule)
deriving DecidableEq

/-- The analyzer built by the part_000 GatherExecution constructor (lines
50-54): it takes no caller configuration and passes DEFAULT_SLICECONFIG_RULES. -/
def dataflowAnalyzerDefaultVariant : DataflowAnalyzer :=
  { sliceConfiguration := some DEFAULT_SLICECONFIG_RULES }

/-- The analyzer built by the first gather.ts GatherExecution constructor
(lines 15-18): new DataflowAnalyzer() with no rules argument. -/
def dataflowAnalyzerNoArgVariant : DataflowAnalyzer :=
  { sliceConfiguration := none }

/-- The analyzer built by the second gather.ts GatherExecution constructor
(lines 127-134): it passes the caller-configured gatherRules through. -/
def dataflowAnalyzerConfiguredVariant (gatherRules : Option (List OverrideRule)) :
    DataflowAnalyzer :=
  { sliceConfiguration := gatherRules }

/-- The serialization shape claimed for gathered programs: every contributing
slice preceded by the cell marker line and followed by a blank line. -/
def markedProgram : List String → String
  | [] => ""
  | t :: ts => "#%%\n" ++ t ++ "\n\n" ++ markedProgram ts

/-- A concrete dataflow-dependent slice computation used to instantiate the
theorems: the slice of the execution at position i covers that cell alone. -/
def sampleSliceFor : List (Option ICell) → Nat → List CellSlice := fun log i =>
  match log.getD i none with
  | some e => [{ executionEventId := e.executionEventId, executionCount := e.executionCount,
                 sliceLines := [0], textSliceLines := e.text }]
  | none => []

/-- A gather cell sitting in the sample execution log. -/
def loggedGatherCell : ICell :=
  { id := "c0", gathered := false, dirty := false, text := "y = 2", executionCount := 1,
    executionEventId := "c0", persistentId := "c0", outputsRef := 0, hasError := false,
    is_cell := true }

/-- A sample execution log holding one logged execution (event id c0). -/
def sampleLog : List (Option ICell) := [some loggedGatherCell]

/-- A code cell whose identity c1 was never passed to logExecution. -/
def unloggedVscCell : IVscCell :=
  { id := "c1", state := CellState.finished,
    data := { cell_type := VscCellType.code, source := MultilineString.str "x = 1",
              execution_count := 2, outputsRef := 0 } }

/-- A code cell whose identity c0 matches the sample log. -/
def matchingVscCell : IVscCell :=
  { id := "c0", state := CellState.finished,
    data := { cell_type := VscCellType.code, source := MultilineString.str "y = 2",
              execution_count := 1, outputsRef := 0 } }

/-- A markdown cell, which convertVscToGatherCell maps to undefined. -/
def markdownVscCell : IVscCell :=
  { id := "m0", state := CellState.finished,
    data := { cell_type := VscCellType.markdown, source := MultilineString.str "# hello",
              execution_count := 0, outputsRef := 0 } }

/-- A code cell with execution_count 0 and identity a. -/
def vscCellX : IVscCell :=
  { id := "a", state := CellState.finished,
    data := { cell_type := VscCellType.code, source := MultilineString.str "x = 1",
              execution_count := 0, outputsRef := 0 } }

/-- A code cell with execution_count 1 and identity b. -/
def vscCellY : IVscCell :=
  { id := "b", state := CellState.finished,
    data := { cell_type := VscCellType.code, source := MultilineString.str "y = x",
              execution_count := 1, outputsRef := 1 } }

/-- A code cell whose source is the one-element array of the empty string, so
its joined text is empty while the raw source is not the empty string. -/
def emptyTextVscCell : IVscCell :=
  { id := "e", state := CellState.finished,
    data := { cell_type := VscCellType.code, source := MultilineString.list [""],
              execution_count := 3, outputsRef := 0 } }

/-- A code cell whose outputs live at reference 0 of the outputs store. -/
def vscCellWithOutputs : IVscCell :=
  { id := "o", state := CellState.finished,
    data := { cell_type := VscCellType.code, source := MultilineString.str "plot(x)",
              execution_count := 1, outputsRef := 0 } }

/-- An outputs store holding one outputs object at reference 0. -/
def initialStore : List (List String) := [["figure-1"]]

/-- The entries appended to the log by running postExecute over a cell list. -/
def loggedEntries (cells : List IVscCell) : List (Option ICell) :=
  cells.filterMap (fun c =>
    if c.data.source ≠ MultilineString.str "" then some (convertVscToGatherCell c) else none)

/-- A slice computation reflecting the spec's no-content case: a cell with
empty text contributes no statements, so its computed slice is empty; any
other cell's slice covers that cell alone. -/
def contentSliceFor : List (Option ICell) → Nat → List CellSlice := fun log i =>
  match log.getD i none with
  | some e =>
    if e.text = "" then []
    else [{ executionEventId := e.executionEventId, executionCount := e.executionCount,
            sliceLines := [0], textSliceLines := e.text }]
  | none => []

theorem foldl_concat_eq_markedProgram (l : List CellSlice) (acc : String) :
    l.foldl concat acc = acc ++ markedProgram (l.map CellSlice.textSliceLines) := by
  induction l generalizing acc with
  | nil => simp [markedProgram, String.append_empty]
  | cons c cs ih =>
    rw [List.foldl_cons, ih, List.map_cons, markedProgram, concat]
    simp [String.append_assoc]

theorem convertVscToGatherCell_code (c : IVscCell) (h : c.data.cell_type = VscCellType.code) :
    convertVscToGatherCell c = some {
      id := c.id
      gathered := false
      dirty := false
      text := concatMultilineString c.data.source
      executionCount := c.data.execution_count
      executionEventId := c.id
      persistentId := c.id
      outputsRef := c.data.outputsRef
      hasError := c.state = CellState.error
      is_cell := true } := by
  rw [convertVscToGatherCell, if_pos h]

theorem sliceAllExecutions_ne_nil (sliceFor : List (Option ICell) → Nat → List CellSlice)
    (log : List (Option ICell)) (cell : ICell)
    (h : ∃ i, i < log.length ∧ matchesAt log cell.executionEventId i = true ∧
      sliceFor log i ≠ []) :
    sliceAllExecutions sliceFor log cell ≠ [] := by
  obtain ⟨i, hi, hm, hs⟩ := h
  have hmem1 : i ∈ (List.range log.length).filter (matchesAt log cell.executionEventId) := by
    rw [List.mem_filter, List.mem_range]
    exact ⟨hi, hm⟩
  have hmem2 : ({ cellSlices := sliceFor log i } : SlicedExecution) ∈
      (((List.range log.length).filter (matchesAt log cell.executionEventId)).reverse).map
        (fun j => ({ cellSlices := sliceFor log j } : SlicedExecution)) :=
    List.mem_map_of_mem _ (List.mem_reverse.mpr hmem1)
  have hmem3 : ({ cellSlices := sliceFor log i } : SlicedExecution) ∈
      sliceAllExecutions sliceFor log cell := by
    rw [sliceAllExecutions, List.mem_filter]
    exact ⟨hmem2, by simpa [List.isEmpty_iff] using hs⟩
  intro hc
  rw [hc] at hmem3
  exact List.not_mem_nil _ hmem3

theorem gatherCodeSt_of_slices (sliceFor : List (Option ICell) → Nat → List CellSlice)
    (vscCell : IVscCell) (st : GatherState) (cell : ICell) (s : SlicedExecution)
    (rest : List SlicedExecution)
    (hc : convertVscToGatherCell vscCell = some cell)
    (hs : sliceAllExecutions sliceFor st.log cell = s :: rest) :
    gatherCodeSt sliceFor vscCell st =
      (some (descriptor ++ s.cellSlices.foldl concat ""), st) := by
  simp only [gatherCodeSt, hc, hs]

/-- C2 amended: for a logged code cell at least one of whose matching logged
executions contributed content (a non-empty computed slice), gatherCode
returns a textual program whose contributing cell slices are each preceded by
the cell-boundary marker line and followed by a blank line, with the
explanatory header comment line prepended to the whole program.  (When every
matching execution contributed no content, sliceAllExecutions is empty and
gatherCode throws on slices[0], as the counterexample shows.) -/
theorem gatherCode_logged_marked_program (sliceFor : List (Option ICell) → Nat → List CellSlice)
    (log : List (Option ICell)) (vscCell : IVscCell)
    (hcode : vscCell.data.cell_type = VscCellType.code)
    (hlog : ∃ i, i < log.length ∧ matchesAt log vscCell.id i = true ∧ sliceFor log i ≠ []) :
    ∃ texts : List String,
      gatherCode sliceFor log vscCell = some (descriptor ++ markedProgram texts) := by
  have hc := convertVscToGatherCell_code vscCell hcode
  have hne := sliceAllExecutions_ne_nil sliceFor log
    { id := vscCell.id
      gathered := false
      dirty := false
      text := concatMultilineString vscCell.data.source
      executionCount := vscCell.data.execution_count
      executionEventId := vscCell.id
      persistentId := vscCell.id
      outputsRef := vscCell.data.outputsRef
      hasError := vscCell.state = CellState.error
      is_cell := true } hlog
  cases hs : sliceAllExecutions sliceFor log
      { id := vscCell.id
        gathered := false
        dirty := false
        text := concatMultilineString vscCell.data.source
        executionCount := vscCell.data.execution_count
        executionEventId := vscCell.id
        persistentId := vscCell.id
        outputsRef := vscCell.data.outputsRef
        hasError := vscCell.state = CellState.error
        is_cell := true } with
  | nil => exact absurd hs hne
  | cons s rest =>
    refine ⟨s.cellSlices.map CellSlice.textSliceLines, ?_⟩
    rw [gatherCode, gatherCodeSt_of_slices sliceFor vscCell { log := log } _ s rest hc hs,
      foldl_concat_eq_markedProgram, String.empty_append]

/-- C2 witness: a logged code cell of the sample log gathered into a marked
program behind the header. -/
theorem gatherCode_logged_marked_program_witness :
    ∃ texts : List String,
      gatherCode sampleSliceFor sampleLog matchingVscCell =
        some (descriptor ++ markedProgram texts) :=
  gatherCode_logged_marked_program sampleSliceFor sampleLog matchingVscCell (by decide)
    ⟨0, by decide, by decide, by decide⟩

/-- C2 counterexample: an empty-text code cell (source is the one-element
array of the empty string) IS logged by postExecute, and its one matching
logged execution contributed no content, so sliceAllExecutions returns the
empty sequence and gatherCode reads cellSlices of the undefined slices[0]:
it throws (modelled as none) instead of returning a textual program. -/
theorem gatherCode_logged_no_content_throws :
    emptyTextVscCell.data.cell_type = VscCellType.code ∧
    (postExecute emptyTextVscCell []).length = 1 ∧
    matchesAt (postExecute emptyTextVscCell []) emptyTextVscCell.id 0 = true ∧
    gatherCode contentSliceFor (postExecute emptyTextVscCell []) emptyTextVscCell =
      none := by decide

/-- C1: gatherCode on a cell identity never passed to logExecution.
sliceAllExecutions does return the empty sequence, but gatherCode then reads
the cellSlices property of slices[0], which is undefined: the call throws a
TypeError (modelled as none) instead of returning an empty result. -/
theorem gatherCode_unlogged_throws :
    (convertVscToGatherCell unloggedVscCell).map
        (fun cell => sliceAllExecutions sampleSliceFor sampleLog cell) = some [] ∧
    gatherCode sampleSliceFor sampleLog unloggedVscCell = none ∧
    gatherCode sampleSliceFor [] unloggedVscCell = none := by decide

/-- C10: for a cell whose cell_type is not code, convertVscToGatherCell
returns no cell and gatherCode short-circuits to the empty string for every
log, without consulting the log and without failing. -/
theorem gatherCode_non_code_cell (sliceFor : List (Option ICell) → Nat → List CellSlice)
    (vscCell : IVscCell) (hnc : vscCell.data.cell_type ≠ VscCellType.code) :
    ∀ log : List (Option ICell), gatherCode sliceFor log vscCell = some "" := by
  intro log
  have hc : convertVscToGatherCell vscCell = none := by
    rw [convertVscToGatherCell, if_neg hnc]
  simp only [gatherCode, gatherCodeSt, hc]

/-- C10 witness: a markdown cell gathered against the empty and the sample
log both give the empty string. -/
theorem gatherCode_non_code_cell_witness :
    markdownVscCell.data.cell_type ≠ VscCellType.code ∧
    gatherCode sampleSliceFor [] markdownVscCell = some "" ∧
    gatherCode sampleSliceFor sampleLog markdownVscCell = some "" :=
  ⟨by decide, gatherCode_non_code_cell sampleSliceFor markdownVscCell (by decide) [],
    gatherCode_non_code_cell sampleSliceFor markdownVscCell (by decide) sampleLog⟩

/-- C8: gatherCode is side-effect-free and deterministic over the log state:
for a logged cell, one call leaves the state unchanged and a second call with
no intervening logging returns the identical result and state. -/
theorem gatherCode_idempotent (sliceFor : List (Option ICell) → Nat → List CellSlice)
    (vscCell : IVscCell) (st : GatherState)
    (hlog : ∃ i, i < st.log.length ∧ matchesAt st.log vscCell.id i = true) :
    (gatherCodeSt sliceFor vscCell st).2 = st ∧
    gatherCodeSt sliceFor vscCell ((gatherCodeSt sliceFor vscCell st).2) =
      gatherCodeSt sliceFor vscCell st := by
  have hst : (gatherCodeSt sliceFor vscCell st).2 = st := by
    unfold gatherCodeSt
    split
    · rfl
    · split <;> rfl
  exact ⟨hst, by rw [hst]⟩

/-- C8 witness: gathering the logged sample cell twice. -/
theorem gatherCode_idempotent_witness :
    (gatherCodeSt sampleSliceFor matchingVscCell { log := sampleLog }).2 = { log := sampleLog } ∧
    gatherCodeSt sampleSliceFor matchingVscCell
        ((gatherCodeSt sampleSliceFor matchingVscCell { log := sampleLog }).2) =
      gatherCodeSt sampleSliceFor matchingVscCell { log := sampleLog } :=
  gatherCode_idempotent sampleSliceFor matchingVscCell { log := sampleLog }
    ⟨0, by decide, by decide⟩

/-- C9: a merged SlicedExecution lists its contributing cell slices in
non-decreasing executionCount order. -/
theorem merge_sorted_by_executionCount (first : SlicedExecution)
    (rest : List SlicedExecution) :
    (first.merge rest).cellSlices.Pairwise
      (fun a b => a.executionCount ≤ b.executionCount) :=
  List.sorted_insertionSort sliceCountLe _

theorem loggedEntries_cons (c : IVscCell) (cs : List IVscCell) :
    loggedEntries (c :: cs) =
      (if c.data.source ≠ MultilineString.str "" then [convertVscToGatherCell c] else []) ++
        loggedEntries cs := by
  by_cases h : c.data.source = MultilineString.str ""
  · simp [loggedEntries, List.filterMap_cons, h]
  · simp [loggedEntries, List.filterMap_cons, h]

theorem runPostExecutes_eq_append (cells : List IVscCell) (log : List (Option ICell)) :
    runPostExecutes cells log = log ++ loggedEntries cells := by
  induction cells generalizing log with
  | nil => simp [runPostExecutes, loggedEntries]
  | cons c cs ih =>
    have hstep : runPostExecutes (c :: cs) log = runPostExecutes cs (postExecute c log) := rfl
    rw [hstep, ih, loggedEntries_cons]
    by_cases h : c.data.source = MultilineString.str ""
    · rw [postExecute, if_neg (by simp [h]), if_neg (by simp [h]), List.nil_append]
    · rw [postExecute, if_pos h, if_pos h, List.append_assoc, List.singleton_append]

theorem loggedCells_runPostExecutes (cells : List IVscCell) :
    loggedCells (runPostExecutes cells []) =
      cells.filterMap
        (fun c => if c.data.source ≠ MultilineString.str "" then convertVscToGatherCell c
                  else none) := by
  rw [runPostExecutes_eq_append, List.nil_append, loggedCells, loggedEntries,
    List.filterMap_filterMap]
  congr 1
  funext c
  by_cases h : c.data.source = MultilineString.str "" <;> simp [h]

theorem filterMap_map_sublist {α β γ : Type} (f : α → Option β) (h : β → γ) (k : α → γ)
    (hf : ∀ a b, f a = some b → h b = k a) (l : List α) :
    List.Sublist ((l.filterMap f).map h) (l.map k) := by
  induction l with
  | nil => simp
  | cons a t ih =>
    cases hfa : f a with
    | none =>
      rw [List.filterMap_cons_none hfa, List.map_cons]
      exact ih.cons (k a)
    | some b =>
      rw [List.filterMap_cons_some hfa, List.map_cons, List.map_cons, hf a b hfa]
      exact ih.cons₂ (k a)

/-- C3 counterexample: re-executing the same cell logs two entries with the
same executionCount and the same executionEventId, so the observed counts are
not strictly increasing and an executionEventId appears twice in the log. -/
theorem executionLog_invariant_counterexample :
    ¬ ((observedCounts (runPostExecutes [vscCellX, vscCellX] [])).Pairwise (· < ·) ∧
       (observedEventIds (runPostExecutes [vscCellX, vscCellX] [])).Nodup) := by decide

/-- C3 amended: the slicer observes the caller-supplied execution_count and
uses the cell id as executionEventId, so when the caller supplies strictly
increasing counts and pairwise-distinct cell ids, the logged counts are
strictly increasing and each executionEventId appears at most once. -/
theorem executionLog_invariant_of_caller (cells : List IVscCell)
    (hinc : (cells.map (fun c => c.data.execution_count)).Pairwise (· < ·))
    (hids : (cells.map IVscCell.id).Nodup) :
    (observedCounts (runPostExecutes cells [])).Pairwise (· < ·) ∧
    (observedEventIds (runPostExecutes cells [])).Nodup := by
  have hconv : ∀ (c : IVscCell) (e : ICell),
      (if c.data.source ≠ MultilineString.str "" then convertVscToGatherCell c else none) =
        some e →
      e.executionCount = c.data.execution_count ∧ e.executionEventId = c.id := by
    intro c e he
    by_cases hsrc : c.data.source = MultilineString.str ""
    · rw [if_neg (by simp [hsrc])] at he
      exact absurd he (by simp)
    · rw [if_pos hsrc] at he
      rw [convertVscToGatherCell] at he
      by_cases hct : c.data.cell_type = VscCellType.code
      · rw [if_pos hct] at he
        injection he with he'
        subst he'
        exact ⟨rfl, rfl⟩
      · rw [if_neg hct] at he
        exact absurd he (by simp)
  have hsub1 : List.Sublist (observedCounts (runPostExecutes cells []))
      (cells.map (fun c => c.data.execution_count)) := by
    rw [observedCounts, loggedCells_runPostExecutes]
    exact filterMap_map_sublist _ ICell.executionCount _
      (fun c e he => (hconv c e he).1) cells
  have hsub2 : List.Sublist (observedEventIds (runPostExecutes cells []))
      (cells.map IVscCell.id) := by
    rw [observedEventIds, loggedCells_runPostExecutes]
    exact filterMap_map_sublist _ ICell.executionEventId _
      (fun c e he => (hconv c e he).2) cells
  exact ⟨hinc.sublist hsub1, hids.sublist hsub2⟩

/-- C3 witness: two cells with increasing execution_count and distinct ids. -/
theorem executionLog_invariant_witness :
    (observedCounts (runPostExecutes [vscCellX, vscCellY] [])).Pairwise (· < ·) ∧
    (observedEventIds (runPostExecutes [vscCellX, vscCellY] [])).Nodup :=
  executionLog_invariant_of_caller [vscCellX, vscCellY] (by decide) (by decide)

/-- C4 counterexample: JavaScript trim also strips leading whitespace, so a
source line with a leading space is not preserved: the code yields a result
different from the trailing-only trim the claim describes. -/
theorem concatMultilineString_counterexample :
    concatMultilineString (MultilineString.list [" x"]) = "x" ∧
    specJoinedTextTrailingOnly [" x"] = " x" ∧
    concatMultilineString (MultilineString.list [" x"]) ≠
      specJoinedTextTrailingOnly [" x"] := by decide

theorem all_takeWhile_true {α : Type} (p : α → Bool) (l : List α) :
    (l.takeWhile p).all p = true := List.all_takeWhile

theorem jsTrim_infix (s : String) :
    ∃ pre post : List Char,
      s.data = pre ++ (jsTrim s).data ++ post ∧
      pre.all isJsWhitespace = true ∧ post.all isJsWhitespace = true := by
  refine ⟨(jsTrimRightData s.data).takeWhile isJsWhitespace,
    (s.data.reverse.takeWhile isJsWhitespace).reverse, ?_, ?_, ?_⟩
  · have h1 : s.data =
        jsTrimRightData s.data ++ (s.data.reverse.takeWhile isJsWhitespace).reverse := by
      conv_lhs => rw [← List.reverse_reverse s.data]
      rw [jsTrimRightData, ← List.reverse_append,
        List.takeWhile_append_dropWhile isJsWhitespace s.data.reverse]
    have h2 : jsTrimRightData s.data =
        (jsTrimRightData s.data).takeWhile isJsWhitespace ++ (jsTrim s).data := by
      have : (jsTrim s).data = jsTrimLeftData (jsTrimRightData s.data) := rfl
      rw [this, jsTrimLeftData,
        List.takeWhile_append_dropWhile isJsWhitespace (jsTrimRightData s.data)]
    conv_lhs => rw [h1, h2]
  · exact all_takeWhile_true isJsWhitespace (jsTrimRightData s.data)
  · rw [List.all_reverse]
    exact all_takeWhile_true isJsWhitespace s.data.reverse

/-- C4 amended: the converted text is the newline join of the lines with
BOTH leading and trailing whitespace trimmed; content other than leading and
trailing whitespace is preserved unchanged (the result is the join minus
all-whitespace prefix and suffix). -/
theorem concatMultilineString_trim_characterization (l : List String) :
    concatMultilineString (MultilineString.list l) = jsTrim (joinSourceLines l) ∧
    ∃ pre post : List Char,
      (joinSourceLines l).data =
        pre ++ (concatMultilineString (MultilineString.list l)).data ++ post ∧
      pre.all isJsWhitespace = true ∧ post.all isJsWhitespace = true :=
  ⟨rfl, jsTrim_infix (joinSourceLines l)⟩

/-- C5 counterexample: the part_000 GatherExecution constructor takes no
caller configuration yet hands the DataflowAnalyzer the built-in
DEFAULT_SLICECONFIG_RULES, a non-empty list of nine rules. -/
theorem defaultVariant_rules_nonempty :
    dataflowAnalyzerDefaultVariant.sliceConfiguration = some DEFAULT_SLICECONFIG_RULES ∧
    dataflowAnalyzerDefaultVariant.sliceConfiguration ≠ none ∧
    dataflowAnalyzerDefaultVariant.sliceConfiguration ≠ some [] ∧
    DEFAULT_SLICECONFIG_RULES.length = 9 := by decide

/-- C5 amended: the first gather.ts constructor passes no rules to the
DataflowAnalyzer, the second passes exactly the caller-configured rules, but
the part_000 constructor passes the built-in nine-rule list by default. -/
theorem analyzerRules_by_variant (gatherRules : Option (List OverrideRule)) :
    dataflowAnalyzerNoArgVariant.sliceConfiguration = none ∧
    (dataflowAnalyzerConfiguredVariant gatherRules).sliceConfiguration = gatherRules ∧
    dataflowAnalyzerDefaultVariant.sliceConfiguration = some DEFAULT_SLICECONFIG_RULES :=
  ⟨rfl, rfl, rfl⟩

/-- C6 counterexample: a code cell whose source is the one-element array of
the empty string has empty source text, yet postExecute appends it to the
log, because the guard only compares the raw source with the empty string. -/
theorem postExecute_empty_text_logged :
    loggedTexts (postExecute emptyTextVscCell []) = [""] ∧
    (postExecute emptyTextVscCell []).length = 1 := by decide

/-- C6 amended: postExecute appends the converted cell to the log exactly
when the raw data.source differs from the empty string (array sources always
pass the guard, even when the joined text is empty), and preExecute never
logs anything. -/
theorem postExecute_guard_iff (vscCell : IVscCell) (log : List (Option ICell)) :
    (postExecute vscCell log = log ++ [convertVscToGatherCell vscCell] ↔
      vscCell.data.source ≠ MultilineString.str "") ∧
    preExecute vscCell log = log := by
  refine ⟨⟨fun h => ?_, fun h => ?_⟩, rfl⟩
  · intro hs
    rw [postExecute, if_neg (by simp [hs])] at h
    have hlen := congrArg List.length h
    simp at hlen
  · rw [postExecute, if_pos h]

/-- C7 counterexample: the gather.ts postExecute logs the converted cell
without a deep copy, so the logged entry shares the caller's outputs object:
mutating the caller's outputs changes what the logged entry observes. -/
theorem postExecute_snapshot_counterexample :
    (loggedCells (postExecute vscCellWithOutputs [])).map
        (fun e => readOutputs (writeOutputs initialStore
          vscCellWithOutputs.data.outputsRef ["mutated"]) e.outputsRef) ≠
      (loggedCells (postExecute vscCellWithOutputs [])).map
        (fun e => readOutputs initialStore e.outputsRef) := by decide

/-- C7 amended: the variant that deep-copies at the log-append boundary
(gather.ts logExecution, part_001 postExecute) does log an independent
snapshot: the appended entry owns a fresh outputs reference, and a later
mutation of the caller's outputs leaves the logged entry's observed outputs
unchanged. -/
theorem logExecution_deepCopy_snapshot (vscCell : IVscCell) (log : List ICell)
    (st : List (List String)) (v : List String)
    (hcode : vscCell.data.cell_type = VscCellType.code)
    (href : vscCell.data.outputsRef < st.length) :
    ∃ (e : ICell) (st' : List (List String)),
      logExecutionA vscCell log st = some (log ++ [e], st') ∧
      e.outputsRef ≠ vscCell.data.outputsRef ∧
      readOutputs (writeOutputs st' vscCell.data.outputsRef v) e.outputsRef =
        readOutputs st' e.outputsRef := by
  have hc : convertVscToGatherCellA vscCell = some {
      id := vscCell.id
      gathered := false
      dirty := false
      text := concatMultilineString vscCell.data.source
      executionCount := 1
      executionEventId := vscCell.id
      persistentId := vscCell.id
      outputsRef := vscCell.data.outputsRef
      hasError := vscCell.state = CellState.error
      is_cell := true } := by
    rw [convertVscToGatherCellA, if_pos hcode]
  refine ⟨_, _, by rw [logExecutionA, hc], ?_, ?_⟩
  · exact fun h => absurd (h ▸ href) (lt_irrefl _)
  · have hne : vscCell.data.outputsRef ≠ st.length := Nat.ne_of_lt href
    simp [deepCopy, readOutputs, writeOutputs, List.getD, List.getElem?_set_ne hne]

/-- C6 witness: the guard at a concrete non-empty-source cell and a concrete
empty-source cell. -/
theorem postExecute_guard_iff_witness :
    postExecute vscCellX [] = [] ++ [convertVscToGatherCell vscCellX] ∧
    preExecute vscCellX [] = [] :=
  ⟨(postExecute_guard_iff vscCellX []).1.mpr (by decide),
    (postExecute_guard_iff vscCellX []).2⟩

/-- C7 witness: deep-copy logging of a concrete cell over a concrete store,
then mutating the caller's outputs. -/
theorem logExecution_deepCopy_snapshot_witness :
    ∃ (e : ICell) (st' : List (List String)),
      logExecutionA vscCellWithOutputs [] initialStore = some ([] ++ [e], st') ∧
      e.outputsRef ≠ vscCellWithOutputs.data.outputsRef ∧
      readOutputs (writeOutputs st' vscCellWithOutputs.data.outputsRef ["mutated"])
          e.outputsRef =
        readOutputs st' e.outputsRef :=
  logExecution_deepCopy_snapshot vscCellWithOutputs [] initialStore ["mutated"]
    (by decide) (by decide)
